import Mathlib

/-!
Verification of the default-command shell wrapper
(`shell_with_default.py`: `ClickGroupWithDefault` and `ClickShellWithDefault`).

The Python code wraps two external collaborators:

  * the click `Group` base class, whose `resolve_command(ctx, args)` looks
    up `args[0]` in the group's command mapping and raises on failure
    (`IndexError` on empty `args`, a usage error for an unknown name), and
  * the `cmd.Cmd` / `click_shell.ClickCmd` interactive loop, whose
    `onecmd(line)` parses a line with `parseline` and dispatches to a
    registered `do_<name>` handler, calling the `default` hook when no
    handler matches.

Both collaborators are embedded below exactly at the granularity the wrapper
interacts with them.  Strings are modelled as `List Char`; the `click`
`Context` argument is a pure pass-through in every wrapped method (the shell
hook reads `self.ctx.command`, i.e. the group itself, which is passed
directly), so the embedding threads the group state instead.
-/

namespace ShellWithDefault

/-- Python strings, modelled as lists of characters. -/
abbrev Str := List Char

/-- Python whitespace characters as used by `str.strip` and `shlex` token
splitting (restricted to the ASCII whitespace class). -/
def isSpace (c : Char) : Bool :=
  (c == ' ') || (c == '\t') || (c == '\n') || (c == '\r') || (c == '\x0b') || (c == '\x0c')

/-- The characters of `cmd.Cmd.identchars`: ASCII letters, digits and the
underscore. -/
def identChar (c : Char) : Bool :=
  c.isAlphanum || (c == '_')

/-- A registered click command.  The wrapper only ever reads a command's
`name`; option schemas and callbacks belong to the external collaborator. -/
structure Cmd where
  name : Str
  deriving DecidableEq

/-- The state of a `ClickGroupWithDefault` instance: the click command
mapping, the `_default_cmd` pointer and the two configuration flags set in
`__init__`.  (`_debug_mode` and the unused custom parsing hook only feed
logging and are omitted; logging has no control-flow effect.) -/
structure GroupState where
  commands : List Cmd
  defaultCmd : Option Cmd
  ignore_unknown_options : Bool
  default_if_no_args : Bool
  deriving DecidableEq

/-- The click `Group.get_command` lookup: a name-keyed dictionary access on
the command mapping. -/
def get_command (g : GroupState) (name : Str) : Option Cmd :=
  g.commands.find? (fun d => d.name == name)

/-- Failures raised by the base collaborator's resolution:
`args[0]` on an empty list raises `IndexError`, an unknown first token makes
click's `Group.resolve_command` raise a usage error (`ctx.fail`). -/
inductive ResolveErr where
  | indexError
  | noSuchCommand (name : Str)
  deriving DecidableEq

/-- The external collaborator: click's `Group.resolve_command`.  It reads
`args[0]`, looks the name up in the command mapping, and on success returns
the name, the command and the remaining arguments. -/
def base_resolve_command (g : GroupState) (args : List Str) :
    Except ResolveErr (Str × Cmd × List Str) :=
  match args with
  | [] => Except.error ResolveErr.indexError
  | a :: rest =>
    match get_command g a with
    | some c => Except.ok (a, c, rest)
    | none => Except.error (ResolveErr.noSuchCommand a)

/-- The `default_cmd_name` property: the default command's name if one is
recorded, else `None`.  (A `click.Command` object is always truthy, so the
Python truthiness test coincides with the `Option` match.) -/
def default_cmd_name (g : GroupState) : Option Str :=
  g.defaultCmd.map Cmd.name

/-- `ClickGroupWithDefault.set_default_command`: records `cmd` as the
group's default, unconditionally overwriting any previous default. -/
def set_default_command (g : GroupState) (cmd : Cmd) : GroupState :=
  { g with defaultCmd := some cmd }

/-- The click `Group.add_command` registration: a dictionary assignment
`commands[cmd.name] = cmd` — it replaces an existing entry with the same
name in place, otherwise appends. -/
def add_command (g : GroupState) (cmd : Cmd) : GroupState :=
  { g with commands :=
      if (g.commands.find? (fun d => d.name == cmd.name)).isSome then
        g.commands.map (fun d => if d.name == cmd.name then cmd else d)
      else
        g.commands ++ [cmd] }

/-- Applying the decorator produced by `ClickGroupWithDefault.command` to a
function that builds command `cmd`: the super-class decorator registers the
command; when the popped `default` keyword was truthy, `set_default_command`
is called on the freshly registered command afterwards. -/
def command_decorator (g : GroupState) (is_default : Bool) (cmd : Cmd) : GroupState :=
  let g1 := add_command g cmd
  if is_default then set_default_command g1 cmd else g1

/-- `ClickGroupWithDefault.resolve_command`: delegate to the base
collaborator; on success return its triple; when the base raises any
exception, return `(self.default_cmd_name, self._default_cmd, args)` with
`args` still bound to the caller's original list (the tuple assignment in
the `try` block never happened).  The `Except` result type records that the
Python function could re-raise, and the `Option` components record that both
substituted values are `None` when no default is registered — the function
itself always returns normally. -/
def resolve_command (g : GroupState) (args : List Str) :
    Except ResolveErr (Option Str × Option Cmd × List Str) :=
  match base_resolve_command g args with
  | Except.ok (n, c, rest) => Except.ok (some n, some c, rest)
  | Except.error _ => Except.ok (default_cmd_name g, g.defaultCmd, args)

/-- `ClickGroupWithDefault.parse_args`: apart from logging, a pure
delegation of the unchanged argument list to the base collaborator's
`parse_args` (the `default_if_no_args` insertion is commented out in the
source).  The base parser is abstracted as a function parameter. -/
def parse_args (baseParse : List Str → List Str) (g : GroupState) (args : List Str) :
    List Str :=
  baseParse args

/-- `ClickGroupWithDefault.__init__`: pops `debug` and `default_if_no_args`
from the caller's `attrs`, sets `ignore_unknown_options` to `True`
unconditionally (there is no constructor parameter for it), clears
`_default_cmd`, and lets the base constructor install any initial command
mapping from the remaining `attrs`. -/
def mkClickGroupWithDefault (debug default_if_no_args_attr : Bool)
    (initCommands : List Cmd) : GroupState :=
  { commands := initCommands
    defaultCmd := none
    ignore_unknown_options := true
    default_if_no_args := default_if_no_args_attr }

/-- The state-mutating operations a constructed group exposes: declaring a
command through the `command` decorator (with or without the `default`
flag) and `set_default_command`.  `resolve_command`, `parse_args` and
`invoke` do not write to the group. -/
inductive GroupOp where
  | decl (is_default : Bool) (cmd : Cmd)
  | setDefault (cmd : Cmd)

/-- Run one group operation. -/
def applyOp (g : GroupState) : GroupOp → GroupState
  | GroupOp.decl b c => command_decorator g b c
  | GroupOp.setDefault c => set_default_command g c

/-- Run a sequence of group operations. -/
def applyOps (g : GroupState) (ops : List GroupOp) : GroupState :=
  ops.foldl applyOp g

/-! Concrete fixtures used by witnesses and counterexamples. -/

/-- Sample command named `echo`. -/
def echoCmd : Cmd := { name := "echo".toList }

/-- Sample command named `add`. -/
def addCmd : Cmd := { name := "add".toList }

/-- Sample command named `uno`. -/
def d1Cmd : Cmd := { name := "uno".toList }

/-- Sample command named `dos`. -/
def d2Cmd : Cmd := { name := "dos".toList }

/-- A group with commands `add` and `echo`, where `echo` is the default. -/
def gEx : GroupState :=
  { commands := [addCmd, echoCmd]
    defaultCmd := some echoCmd
    ignore_unknown_options := true
    default_if_no_args := true }

/-- A group with one command `add` and no default configured. -/
def gNoDefault : GroupState :=
  { commands := [addCmd]
    defaultCmd := none
    ignore_unknown_options := true
    default_if_no_args := true }

/-- A freshly constructed empty group. -/
def gEmpty : GroupState := mkClickGroupWithDefault false true []

/-! The interactive loop collaborator (`cmd.Cmd` / `click_shell.ClickCmd`)
and the `ClickShellWithDefault` overrides. -/

/-- Python's `str.strip` on the left: drop leading whitespace. -/
def lstrip (l : Str) : Str := l.dropWhile isSpace

/-- Python's `str.strip` on the right: drop trailing whitespace. -/
def rstrip (l : Str) : Str := (l.reverse.dropWhile isSpace).reverse

/-- Python's `str.strip`: drop whitespace on both ends. -/
def strip (l : Str) : Str := rstrip (lstrip l)

/-- Fuel-indexed worker for whitespace tokenisation; the fuel is an upper
bound on the string length, so recursion is structural and the function
computes by kernel reduction. -/
def tokenizeGo : Nat → Str → List Str
  | _, [] => []
  | 0, _ :: _ => []
  | Nat.succ n, c :: cs =>
    if isSpace c then tokenizeGo n cs
    else (c :: cs.takeWhile (fun x => !isSpace x))
      :: tokenizeGo n (cs.dropWhile (fun x => !isSpace x))

/-- Whitespace tokenisation of an interactive line, as `shlex.split`
performs it on quote-free input (quoting is the external collaborator's
concern and out of scope; the spec's `tokenize` is exactly this split). -/
def tokenize (l : Str) : List Str := tokenizeGo l.length l

/-- The f-string `f"{default_cmd_name} {line}"` built by the unmatched-line
hook: a fresh string holding the default name, one space, and the original
line. -/
def build_alternative (nm line : Str) : Str := nm ++ (' ' :: line)

/-- The `cmd.Cmd.parseline` collaborator: strip the line; an empty result
means an empty line (`None, None, line`); a leading `?` is rewritten to
`help `; a leading `!` yields command `None` because `click_shell` defines
no `do_shell`; otherwise the command word is the maximal `identchars`
prefix and the argument is the stripped remainder.  The result is
`none` for the empty line, else `some (cmd?, arg, line)` with `line` the
stripped (possibly rewritten) line that `onecmd` goes on to use. -/
def parseline (line : Str) : Option (Option Str × Str × Str) :=
  match strip line with
  | [] => none
  | c :: cs =>
    if c == '?' then
      let l2 := "help ".toList ++ cs
      some (some (l2.takeWhile identChar), strip (l2.dropWhile identChar), l2)
    else if c == '!' then
      some (none, [], c :: cs)
    else
      let l2 := c :: cs
      some (some (l2.takeWhile identChar), strip (l2.dropWhile identChar), l2)

/-- A Python value passed to the base class' `default` handler.  The source
contains the slip `super().default(str)`, which passes the builtin type
object `str` rather than the line, so the embedding distinguishes a string
value from the `str` type object. -/
inductive PyVal where
  | pstr (s : Str)
  | strType
  deriving DecidableEq

/-- The observable outcome of feeding one line to the shell (or one token
sequence to the dispatcher): a group command invoked with `shlex`-split
arguments, a built-in loop command (`help`/`quit`/`exit`) run on the raw
argument text, the base class' unknown-command report (capturing the value
it was handed), the empty-line no-op, recursion fuel exhausted (the Python
code would recurse without bound), or a crash from invoking a `None`
command. -/
inductive Outcome where
  | invoked (c : Cmd) (args : List Str)
  | builtinRun (name : Str) (arg : Str)
  | unknownReported (v : PyVal)
  | emptyLine
  | exhausted
  | crashed
  deriving DecidableEq

/-- Handler lookup performed by `getattr(self, 'do_' + cmd)`: `click_shell`
registers one `do_<name>` instance attribute per group command (instance
attributes shadow the class-level built-ins), and the `ClickCmd` class
itself provides `do_help`, `do_quit` and `do_exit`. -/
def shell_lookup (g : GroupState) (w : Str) : Option (Sum Cmd Str) :=
  match get_command g w with
  | some c => some (Sum.inl c)
  | none =>
    if w = "help".toList ∨ w = "quit".toList ∨ w = "exit".toList then
      some (Sum.inr w)
    else none

/-- The `cmd.Cmd.onecmd` collaborator together with the overridden
`ClickShellWithDefault.default` hook (the `fallback` binding below), with
explicit recursion fuel: the hook re-submits
`f"{default_cmd_name} {line}"` through `onecmd`, which in Python recurses
unboundedly when the default name itself never matches.  `lastcmd`
bookkeeping is dropped because `ClickCmd.emptyline` is a no-op that never
reads it.  When no default name is configured (or it is the empty, falsy
string) the hook executes `super().default(str)` — note: the type object,
not the line. -/
def onecmdFuel (g : GroupState) : Nat → Str → Outcome
  | 0, _ => Outcome.exhausted
  | Nat.succ fuel, line =>
    let fallback : Str → Outcome := fun l =>
      match default_cmd_name g with
      | some nm =>
        if nm = [] then Outcome.unknownReported PyVal.strType
        else onecmdFuel g fuel (build_alternative nm l)
      | none => Outcome.unknownReported PyVal.strType
    match parseline line with
    | none => Outcome.emptyLine
    | some (none, _, l) => fallback l
    | some (some cmdw, arg, l) =>
      if cmdw = [] then fallback l
      else
        match shell_lookup g cmdw with
        | some (Sum.inl c) => Outcome.invoked c (tokenize arg)
        | some (Sum.inr b) => Outcome.builtinRun b arg
        | none => fallback l

/-- The `ClickShellWithDefault.default` hook itself, as invoked by the loop
on an unmatched line: read `self.ctx.command.default_cmd_name`; if truthy,
build `f"{default_cmd_name} {line}"` and re-submit it through `onecmd`
(with `fuel` re-submissions allowed); otherwise run `super().default(str)`. -/
def clickshell_default (g : GroupState) (fuel : Nat) (line : Str) : Outcome :=
  match default_cmd_name g with
  | some nm =>
    if nm = [] then Outcome.unknownReported PyVal.strType
    else onecmdFuel g fuel (build_alternative nm line)
  | none => Outcome.unknownReported PyVal.strType

/-- One-shot invocation of the dispatcher on a token vector: click's
`MultiCommand.invoke` resolves and then invokes the resolved command on the
remaining tokens; a `None` command (the swallowed-failure case of
`resolve_command`) crashes. -/
def dispatch_direct (g : GroupState) (tokens : List Str) : Outcome :=
  match resolve_command g tokens with
  | Except.ok (_, some c, rest) => Outcome.invoked c rest
  | _ => Outcome.crashed

/-! Claims about the dispatcher. -/

/-- Claim C1.  The claim says that with no default registered, an unmatched
token sequence makes `resolve_command` propagate the base collaborator's
original failure unchanged.  The code does not: the bare `except Exception`
catches the usage error and the function returns normally with the triple
`(None, None, args)` — a substitute result, not the original failure.  At
the concrete input `["bogus"]` against a group with no default, the base
resolution fails with a no-such-command error, yet the wrapper returns
`Except.ok (none, none, ["bogus"])`. -/
theorem claim1_failure_swallowed :
    base_resolve_command gNoDefault ("bogus".toList :: [])
      = Except.error (ResolveErr.noSuchCommand ("bogus".toList)) ∧
    resolve_command gNoDefault ("bogus".toList :: [])
      = Except.ok (none, none, "bogus".toList :: []) := by
  exact ⟨rfl, rfl⟩

/-- Claim C2.  When a default command `D` is configured and the first token
matches no registered command, `resolve_command` returns `D`'s name, `D`
itself, and the entire original token sequence unmodified (including the
token that looked like a command name). -/
theorem claim2_default_gets_full_args (g : GroupState) (D : Cmd) (t : Str)
    (rest : List Str) (hD : g.defaultCmd = some D)
    (hmiss : get_command g t = none) :
    resolve_command g (t :: rest) = Except.ok (some D.name, some D, t :: rest) := by
  simp [resolve_command, base_resolve_command, hmiss, default_cmd_name, hD]

/-- Witness for claim C2: in `gEx` (default `echo`) the tokens
`["hello", "world"]` do not name a command and resolve to `echo` with both
tokens as arguments. -/
theorem claim2_witness :
    resolve_command gEx ("hello".toList :: "world".toList :: [])
      = Except.ok (some echoCmd.name, some echoCmd,
          "hello".toList :: "world".toList :: []) :=
  claim2_default_gets_full_args gEx echoCmd ("hello".toList)
    ("world".toList :: []) rfl (by decide)

/-- Claim C4.  Whenever the base collaborator's resolution succeeds,
`resolve_command` returns exactly the base triple: the default fallback
never shadows a command the base resolved, whether or not a default is
configured. -/
theorem claim4_success_passes_through (g : GroupState) (args rest : List Str)
    (nm : Str) (c : Cmd)
    (h : base_resolve_command g args = Except.ok (nm, c, rest)) :
    resolve_command g args = Except.ok (some nm, some c, rest) := by
  simp [resolve_command, h]

/-- Witness for claim C4: in `gEx` (which has a default configured) the
tokens `["add", "1"]` resolve to the explicitly named `add` command with
argument `["1"]`, untouched by the fallback. -/
theorem claim4_witness :
    resolve_command gEx ("add".toList :: "1".toList :: [])
      = Except.ok (some ("add".toList), some addCmd, "1".toList :: []) :=
  claim4_success_passes_through gEx ("add".toList :: "1".toList :: [])
    ("1".toList :: []) ("add".toList) addCmd rfl

/-- Looking up a name after the in-place dictionary replacement performed by
`add_command` when the key already exists finds the replacement. -/
theorem find?_map_replace (c : Cmd) :
    ∀ l : List Cmd, (l.find? (fun d => d.name == c.name)).isSome = true →
      (l.map (fun d => if d.name == c.name then c else d)).find?
          (fun d => d.name == c.name) = some c := by
  intro l
  induction l with
  | nil => intro h; simp at h
  | cons a as ih =>
    intro h
    by_cases ha : a.name = c.name
    · simp [ha]
    · rw [List.find?_cons_of_neg (p := fun d => d.name == c.name) as (by simp [ha])] at h
      simp only [List.map_cons, if_neg (show ¬ ((a.name == c.name) = true) by simp [ha])]
      rw [List.find?_cons_of_neg (p := fun d : Cmd => d.name == c.name)
        (as.map (fun d => if d.name == c.name then c else d)) (by simp [ha])]
      exact ih h

/-- Looking up a name after the appending branch of `add_command` (key not
present before) finds the appended command. -/
theorem find?_append_self (c : Cmd) :
    ∀ l : List Cmd, (l.find? (fun d => d.name == c.name)).isSome = false →
      (l ++ [c]).find? (fun d => d.name == c.name) = some c := by
  intro l
  induction l with
  | nil => simp
  | cons a as ih =>
    intro h
    by_cases ha : a.name = c.name
    · rw [List.find?_cons_of_pos (p := fun d => d.name == c.name) as (by simp [ha])] at h
      simp at h
    · rw [List.cons_append,
        List.find?_cons_of_neg (p := fun d : Cmd => d.name == c.name) (as ++ [c])
          (by simp [ha])]
      apply ih
      rwa [List.find?_cons_of_neg (p := fun d => d.name == c.name) as (by simp [ha])] at h

/-- Registering a command finds it again under its own name: the dictionary
assignment in `add_command` makes the new object the value at its key,
whether the key existed before or not. -/
theorem get_command_add_self (g : GroupState) (c : Cmd) :
    get_command (add_command g c) c.name = some c := by
  unfold get_command add_command
  by_cases h : (g.commands.find? (fun d => d.name == c.name)).isSome = true
  · simp only [h, if_true]
    exact find?_map_replace c g.commands h
  · have h' : (g.commands.find? (fun d => d.name == c.name)).isSome = false := by
      cases hx : (g.commands.find? (fun d => d.name == c.name)).isSome
      · rfl
      · exact absurd hx h
    simp only [h', Bool.false_eq_true, if_false]
    exact find?_append_self c g.commands h'

/-- Claim C6.  Declaring a second command with the `default` flag silently
replaces the first: the decorator application is a total function (no error
path exists in `command` or `set_default_command`), the group's default
pointer afterwards is the second command, and every token sequence whose
first token matches no registered command resolves to it. -/
theorem claim6_second_default_wins (g : GroupState) (D1 D2 : Cmd) :
    (command_decorator (command_decorator g true D1) true D2).defaultCmd = some D2 ∧
    ∀ (t : Str) (rest : List Str),
      get_command (command_decorator (command_decorator g true D1) true D2) t = none →
      resolve_command (command_decorator (command_decorator g true D1) true D2) (t :: rest)
        = Except.ok (some D2.name, some D2, t :: rest) := by
  have hdef :
      (command_decorator (command_decorator g true D1) true D2).defaultCmd = some D2 := by
    simp [command_decorator, set_default_command]
  refine ⟨hdef, ?_⟩
  intro t rest hmiss
  simp [resolve_command, base_resolve_command, hmiss, default_cmd_name, hdef]

/-- Witness for claim C6: declaring `uno` then `dos` as defaults on a fresh
group leaves `dos` as the default, and the unmatched tokens `["zzz", "a"]`
resolve to `dos` with the full sequence as arguments. -/
theorem claim6_witness :
    (command_decorator (command_decorator gEmpty true d1Cmd) true d2Cmd).defaultCmd
      = some d2Cmd ∧
    resolve_command (command_decorator (command_decorator gEmpty true d1Cmd) true d2Cmd)
        ("zzz".toList :: "a".toList :: [])
      = Except.ok (some d2Cmd.name, some d2Cmd, "zzz".toList :: "a".toList :: []) :=
  ⟨(claim6_second_default_wins gEmpty d1Cmd d2Cmd).1,
    (claim6_second_default_wins gEmpty d1Cmd d2Cmd).2 ("zzz".toList)
      ("a".toList :: []) (by decide)⟩

/-- Claim C7.  The `default_if_no_args` flag is stored but never consulted:
for any base parser, group and token sequence, `parse_args` and
`resolve_command` give identical results whether the flag is true or false,
and `parse_args` hands the zero-token sequence to the base collaborator
unchanged (the insertion of the default name on empty input is commented
out in the source). -/
theorem claim7_default_if_no_args_inert :
    ∀ (bp : List Str → List Str) (g : GroupState) (b1 b2 : Bool) (args : List Str),
      parse_args bp { g with default_if_no_args := b1 } args
        = parse_args bp { g with default_if_no_args := b2 } args ∧
      resolve_command { g with default_if_no_args := b1 } args
        = resolve_command { g with default_if_no_args := b2 } args ∧
      parse_args bp { g with default_if_no_args := b1 } [] = bp [] := by
  intro bp g b1 b2 args
  exact ⟨rfl, rfl, rfl⟩

/-- Claim C9.  The constructor offers no way to set `ignore_unknown_options`
(it is assigned `True` unconditionally, before the base constructor runs,
and click's base constructor takes no such parameter), and no group
operation writes it afterwards: after any sequence of command declarations
and default (re-)assignments, the flag is still `true`. -/
theorem claim9_ignore_unknown_options_always_true :
    ∀ (debug dina : Bool) (initCommands : List Cmd) (ops : List GroupOp),
      (applyOps (mkClickGroupWithDefault debug dina initCommands) ops).ignore_unknown_options
        = true := by
  have hpres : ∀ (g : GroupState) (op : GroupOp),
      (applyOp g op).ignore_unknown_options = g.ignore_unknown_options := by
    intro g op
    cases op with
    | decl b c =>
      cases b <;> simp [applyOp, command_decorator, add_command, set_default_command]
    | setDefault c => simp [applyOp, set_default_command]
  have hall : ∀ (ops : List GroupOp) (g : GroupState),
      (applyOps g ops).ignore_unknown_options = g.ignore_unknown_options := by
    intro ops
    induction ops with
    | nil => intro g; rfl
    | cons op ops ih =>
      intro g
      show (applyOps (applyOp g op) ops).ignore_unknown_options = _
      rw [ih (applyOp g op), hpres g op]
  intro debug dina initCommands ops
  rw [hall ops (mkClickGroupWithDefault debug dina initCommands)]
  rfl

/-- Claim C10.  Declaring a command without the `default` flag takes the
plain super-class decorator path: the command is registered under its name,
and the group's default pointer is exactly what it was before — neither set
nor cleared. -/
theorem claim10_plain_decl_preserves_default :
    ∀ (g : GroupState) (c : Cmd),
      (command_decorator g false c).defaultCmd = g.defaultCmd ∧
      get_command (command_decorator g false c) c.name = some c := by
  intro g c
  constructor
  · simp [command_decorator, add_command]
  · simpa [command_decorator] using get_command_add_self g c

/-! Helper lemmas about `tokenize`, `strip` and friends. -/

/-- Any sufficient amount of fuel computes the same tokenisation. -/
theorem tokenizeGo_eq_tokenize :
    ∀ (n : Nat) (l : Str), l.length ≤ n → tokenizeGo n l = tokenize l := by
  intro n
  induction n using Nat.strong_induction_on with
  | _ n ih =>
    intro l hl
    cases l with
    | nil => cases n <;> rfl
    | cons c cs =>
      cases n with
      | zero => simp at hl
      | succ m =>
        have hcs : cs.length ≤ m := by
          simp only [List.length_cons] at hl
          omega
        have hrhs : tokenize (c :: cs) = tokenizeGo (cs.length + 1) (c :: cs) := rfl
        rw [hrhs]
        show (if isSpace c then tokenizeGo m cs
            else (c :: cs.takeWhile (fun x => !isSpace x))
              :: tokenizeGo m (cs.dropWhile (fun x => !isSpace x)))
          = if isSpace c then tokenizeGo cs.length cs
            else (c :: cs.takeWhile (fun x => !isSpace x))
              :: tokenizeGo cs.length (cs.dropWhile (fun x => !isSpace x))
        by_cases hc : isSpace c = true
        · rw [if_pos hc, if_pos hc, ih m (by omega) cs hcs,
            ih cs.length (by omega) cs (Nat.le_refl _)]
        · have hdw : (cs.dropWhile (fun x => !isSpace x)).length ≤ cs.length :=
            (List.dropWhile_sublist _).length_le
          rw [if_neg hc, if_neg hc, ih m (by omega) _ (Nat.le_trans hdw hcs),
            ih cs.length (by omega) _ hdw]

/-- Unfolding lemma for `tokenize` on a cons cell. -/
theorem tokenize_cons (c : Char) (t : Str) :
    tokenize (c :: t) = if isSpace c then tokenize t
      else (c :: t.takeWhile (fun x => !isSpace x))
        :: tokenize (t.dropWhile (fun x => !isSpace x)) := by
  show tokenizeGo (t.length + 1) (c :: t) = _
  show (if isSpace c then tokenizeGo t.length t
      else (c :: t.takeWhile (fun x => !isSpace x))
        :: tokenizeGo t.length (t.dropWhile (fun x => !isSpace x))) = _
  by_cases hc : isSpace c = true
  · rw [if_pos hc, if_pos hc]
    rfl
  · rw [if_neg hc, if_neg hc]
    rw [tokenizeGo_eq_tokenize t.length _ ((List.dropWhile_sublist _).length_le)]

/-- Tokenising the empty string gives no tokens. -/
theorem tokenize_nil : tokenize [] = [] := rfl

/-- A leading whitespace character does not affect tokenisation. -/
theorem tokenize_space_cons {c : Char} (h : isSpace c = true) (t : Str) :
    tokenize (c :: t) = tokenize t := by
  rw [tokenize_cons, if_pos h]

/-- An all-whitespace string tokenises to nothing. -/
theorem tokenize_all_space : ∀ {l : Str}, (∀ x ∈ l, isSpace x = true) → tokenize l = [] := by
  intro l
  induction l with
  | nil => intro _; exact tokenize_nil
  | cons c cs ih =>
    intro h
    rw [tokenize_space_cons (h c (List.mem_cons_self c cs))]
    exact ih (fun x hx => h x (List.mem_cons_of_mem c hx))

/-- Left-stripping does not affect tokenisation. -/
theorem tokenize_lstrip : ∀ l : Str, tokenize (lstrip l) = tokenize l := by
  intro l
  induction l with
  | nil => rfl
  | cons c cs ih =>
    by_cases hc : isSpace c = true
    · rw [lstrip, List.dropWhile_cons_of_pos hc, tokenize_space_cons hc]
      exact ih
    · rw [lstrip, List.dropWhile_cons_of_neg hc]

/-- If some element of the front list fails `p`, appending does not change
`takeWhile`. -/
theorem takeWhile_append_of_ex {p : Char → Bool} :
    ∀ {a : Str} (b : Str), (∃ x ∈ a, p x = false) →
      (a ++ b).takeWhile p = a.takeWhile p := by
  intro a
  induction a with
  | nil =>
    intro b h
    exact absurd h (by simp)
  | cons y ys ih =>
    intro b h
    by_cases hy : p y = true
    · rw [List.cons_append, List.takeWhile_cons_of_pos hy, List.takeWhile_cons_of_pos hy]
      have h' : ∃ x ∈ ys, p x = false := by
        rcases h with ⟨x, hx, hpx⟩
        rcases List.mem_cons.mp hx with rfl | hx'
        · rw [hy] at hpx; cases hpx
        · exact ⟨x, hx', hpx⟩
      rw [ih b h']
    · rw [List.cons_append, List.takeWhile_cons_of_neg hy, List.takeWhile_cons_of_neg hy]

/-- If some element of the front list fails `p`, `dropWhile` stays within the
front list and the appended part survives whole. -/
theorem dropWhile_append_of_ex {p : Char → Bool} :
    ∀ {a : Str} (b : Str), (∃ x ∈ a, p x = false) →
      (a ++ b).dropWhile p = a.dropWhile p ++ b := by
  intro a
  induction a with
  | nil =>
    intro b h
    exact absurd h (by simp)
  | cons y ys ih =>
    intro b h
    by_cases hy : p y = true
    · rw [List.cons_append, List.dropWhile_cons_of_pos hy, List.dropWhile_cons_of_pos hy]
      have h' : ∃ x ∈ ys, p x = false := by
        rcases h with ⟨x, hx, hpx⟩
        rcases List.mem_cons.mp hx with rfl | hx'
        · rw [hy] at hpx; cases hpx
        · exact ⟨x, hx', hpx⟩
      exact ih b h'
    · rw [List.cons_append, List.dropWhile_cons_of_neg hy, List.dropWhile_cons_of_neg hy,
        List.cons_append]

/-- An all-whitespace suffix does not affect tokenisation. -/
theorem tokenize_append_space {s : Str} (hs : ∀ x ∈ s, isSpace x = true) :
    ∀ l : Str, tokenize (l ++ s) = tokenize l := by
  have hts : s.takeWhile (fun x => !isSpace x) = [] := by
    cases s with
    | nil => rfl
    | cons y ys =>
      exact List.takeWhile_cons_of_neg (by simp [hs y (List.mem_cons_self y ys)])
  have hds : s.dropWhile (fun x => !isSpace x) = s := by
    cases s with
    | nil => rfl
    | cons y ys =>
      exact List.dropWhile_cons_of_neg (by simp [hs y (List.mem_cons_self y ys)])
  have main : ∀ (n : Nat) (l : Str), l.length ≤ n → tokenize (l ++ s) = tokenize l := by
    intro n
    induction n with
    | zero =>
      intro l hl
      have hnil : l = [] := List.length_eq_zero.mp (Nat.le_zero.mp hl)
      subst hnil
      rw [List.nil_append, tokenize_all_space hs, tokenize_nil]
    | succ n ih =>
      intro l hl
      match l with
      | [] => rw [List.nil_append, tokenize_all_space hs, tokenize_nil]
      | c :: cs =>
        have hlen : cs.length ≤ n := by
          simp only [List.length_cons] at hl
          omega
        by_cases hc : isSpace c = true
        · rw [List.cons_append, tokenize_space_cons hc, tokenize_space_cons hc]
          exact ih cs hlen
        · have hc' : ¬ (isSpace c = true) := hc
          rw [List.cons_append, tokenize_cons, tokenize_cons, if_neg hc', if_neg hc']
          by_cases hall : ∀ x ∈ cs, isSpace x = false
          · have hallp : ∀ x ∈ cs, (fun x => !isSpace x) x = true := by
              intro x hx
              simp [hall x hx]
            rw [List.takeWhile_append_of_pos hallp, List.dropWhile_append_of_pos hallp,
              hts, hds, List.append_nil]
            have h1 : cs.takeWhile (fun x => !isSpace x) = cs :=
              List.takeWhile_eq_self_iff.mpr hallp
            have h2 : cs.dropWhile (fun x => !isSpace x) = [] :=
              List.dropWhile_eq_nil_iff.mpr hallp
            rw [h1, h2, tokenize_all_space hs, tokenize_nil]
          · have hex : ∃ x ∈ cs, (fun x => !isSpace x) x = false := by
              rcases not_forall.mp hall with ⟨x, hx⟩
              rcases Classical.not_imp.mp hx with ⟨hxm, hxs⟩
              refine ⟨x, hxm, ?_⟩
              cases hv : isSpace x
              · exact absurd hv hxs
              · simp [hv]
            rw [takeWhile_append_of_ex s hex, dropWhile_append_of_ex s hex]
            have hlen2 : (cs.dropWhile (fun x => !isSpace x)).length ≤ n :=
              Nat.le_trans (List.dropWhile_sublist _).length_le hlen
            rw [ih (cs.dropWhile (fun x => !isSpace x)) hlen2]
  exact fun l => main l.length l (Nat.le_refl _)

/-- Every string is its right-strip followed by an all-whitespace suffix. -/
theorem rstrip_decomp (l : Str) :
    l = rstrip l ++ (l.reverse.takeWhile isSpace).reverse ∧
    ∀ x ∈ (l.reverse.takeWhile isSpace).reverse, isSpace x = true := by
  constructor
  · conv_lhs => rw [← List.reverse_reverse l,
      ← List.takeWhile_append_dropWhile (p := isSpace) (l := l.reverse)]
    rw [List.reverse_append]
    rfl
  · intro x hx
    rw [List.mem_reverse] at hx
    exact List.mem_takeWhile_imp hx

/-- Right-stripping does not affect tokenisation. -/
theorem tokenize_rstrip (l : Str) : tokenize (rstrip l) = tokenize l := by
  obtain ⟨hdec, hsfx⟩ := rstrip_decomp l
  conv_rhs => rw [hdec]
  exact (tokenize_append_space hsfx (rstrip l)).symm

/-- Stripping does not affect tokenisation. -/
theorem tokenize_strip (l : Str) : tokenize (strip l) = tokenize l := by
  rw [strip, tokenize_rstrip, tokenize_lstrip]

/-- A string right-strips to the empty string exactly when it is all
whitespace. -/
theorem rstrip_eq_nil_iff {l : Str} : rstrip l = [] ↔ ∀ x ∈ l, isSpace x = true := by
  show List.rdropWhile isSpace l = [] ↔ _
  exact List.rdropWhile_eq_nil_iff

/-- Right-stripping distributes over append: everything hinges on whether
the right part strips away completely. -/
theorem rstrip_append (a b : Str) :
    rstrip (a ++ b) = if rstrip b = [] then rstrip a else a ++ rstrip b := by
  by_cases hb : rstrip b = []
  · have hball : ∀ x ∈ b.reverse, isSpace x = true := by
      intro x hx
      exact rstrip_eq_nil_iff.mp hb x (List.mem_reverse.mp hx)
    rw [if_pos hb, rstrip, List.reverse_append, List.dropWhile_append_of_pos hball]
    rfl
  · have hex : ∃ x ∈ b.reverse, isSpace x = false := by
      by_contra hno
      apply hb
      apply rstrip_eq_nil_iff.mpr
      intro x hx
      rcases not_exists.mp hno x with hx'
      cases hv : isSpace x
      · exact absurd (by exact ⟨List.mem_reverse.mpr hx, hv⟩) hx'
      · rfl
    rw [if_neg hb, rstrip, List.reverse_append, dropWhile_append_of_ex _ hex,
      List.reverse_append, List.reverse_reverse]
    rfl

/-- A string with no whitespace right-strips to itself. -/
theorem rstrip_no_space {l : Str} (h : ∀ x ∈ l, isSpace x = false) : rstrip l = l := by
  cases hrev : l.reverse with
  | nil =>
    have : l = [] := List.reverse_eq_nil_iff.mp hrev
    subst this
    rfl
  | cons r rs =>
    have hr : isSpace r = false :=
      h r (List.mem_reverse.mp (by rw [hrev]; exact List.mem_cons_self r rs))
    rw [rstrip, hrev, List.dropWhile_cons_of_neg (by simp [hr]), ← hrev,
      List.reverse_reverse]

/-- A string with a non-whitespace head left-strips to itself. -/
theorem lstrip_cons_of_neg {c : Char} {t : Str} (h : isSpace c = false) :
    lstrip (c :: t) = c :: t := by
  rw [lstrip, List.dropWhile_cons_of_neg (by simp [h])]

/-! Claims about the interactive loop. -/

/-- Claim C3.  The claim says that with no default configured, the
unmatched-line hook hands the very same line to the base class' own
unmatched-line handler.  The code does not: line 70 reads
`return super().default(str)` — it passes the builtin type object `str`,
not the variable `line` — so the base handler receives the wrong value and
would report `<class 'str'>` instead of the user's line.  Evaluating the
hook on the unmatched line `"bogus arg"` against a group with no default
shows the delegated value is the `str` type object, not the line. -/
theorem claim3_wrong_value_delegated :
    clickshell_default gNoDefault 1 ("bogus arg".toList)
      = Outcome.unknownReported PyVal.strType ∧
    Outcome.unknownReported PyVal.strType
      = clickshell_default gNoDefault 1 ("bogus arg".toList) := by
  exact ⟨rfl, rfl⟩

/-- Claim C5.  For a configured default command `D` — registered in the
group under a nonempty `identchars`, whitespace-free name, as every click
command reachable through `cmd.Cmd`'s parser is — the unmatched-line hook
on any line `L` builds exactly `f"{D.name} {line}"`, re-submits it once
through `onecmd`, and the outcome equals invoking the dispatcher directly
on the tokens `D.name :: tokenize L`: both invoke `D` on `tokenize L`.  A
re-submission budget of one (`fuel + 1`) suffices, so no second retry or
substitution is ever consulted. -/
theorem claim5_hook_equals_direct_dispatch
    (g : GroupState) (D : Cmd) (L : Str) (fuel : Nat)
    (hD : g.defaultCmd = some D)
    (hreg : get_command g D.name = some D)
    (hne : D.name ≠ [])
    (hident : ∀ c ∈ D.name, identChar c = true)
    (hnospace : ∀ c ∈ D.name, isSpace c = false) :
    clickshell_default g (fuel + 1) L = Outcome.invoked D (tokenize L) ∧
    dispatch_direct g (D.name :: tokenize L) = Outcome.invoked D (tokenize L) := by
  refine ⟨?_, ?_⟩
  case refine_2 =>
    simp [dispatch_direct, resolve_command, base_resolve_command, hreg]
  case refine_1 =>
    have hname : default_cmd_name g = some D.name := by
      simp [default_cmd_name, hD]
    simp only [clickshell_default, hname]
    rw [if_neg hne]
    obtain ⟨n0, nt, hn⟩ : ∃ n0 nt, D.name = n0 :: nt := by
      cases hx : D.name with
      | nil => exact absurd hx hne
      | cons a b => exact ⟨a, b, rfl⟩
    rw [hn] at hreg hident hnospace ⊢
    have hmem0 : n0 ∈ n0 :: nt := List.mem_cons_self n0 nt
    have hn0s : isSpace n0 = false := hnospace n0 hmem0
    have hn0i : identChar n0 = true := hident n0 hmem0
    have hntident : ∀ x ∈ nt, identChar x = true :=
      fun x hx => hident x (List.mem_cons_of_mem n0 hx)
    have hq : ¬ ((n0 == '?') = true) := by
      intro hx
      have hx' : n0 = '?' := by simpa using hx
      rw [hx'] at hn0i
      exact absurd hn0i (by decide)
    have hbang : ¬ ((n0 == '!') = true) := by
      intro hx
      have hx' : n0 = '!' := by simpa using hx
      rw [hx'] at hn0i
      exact absurd hn0i (by decide)
    have hsp : ¬ (identChar ' ' = true) := by decide
    have hl1 : lstrip ((n0 :: nt) ++ (' ' :: L)) = (n0 :: nt) ++ (' ' :: L) := by
      simp only [List.cons_append]
      exact lstrip_cons_of_neg hn0s
    have hstrip : strip (build_alternative (n0 :: nt) L)
        = if rstrip L = [] then n0 :: nt else (n0 :: nt) ++ (' ' :: rstrip L) := by
      show strip ((n0 :: nt) ++ (' ' :: L)) = _
      rw [strip, hl1, rstrip_append]
      have h2 : rstrip (' ' :: L) = if rstrip L = [] then [] else ' ' :: rstrip L := by
        show rstrip ([' '] ++ L) = _
        rw [rstrip_append]
        by_cases hR : rstrip L = []
        · rw [if_pos hR, if_pos hR]
          rfl
        · rw [if_neg hR, if_neg hR]
          rfl
      rw [h2]
      by_cases hR : rstrip L = []
      · simp only [hR, if_pos rfl]
        exact rstrip_no_space hnospace
      · have h3 : ¬ (' ' :: rstrip L = []) := by simp
        simp only [if_neg hR, if_neg h3]
    by_cases hR : rstrip L = []
    · -- the line is all whitespace: the resubmitted line is just the name
      have hLtok : tokenize L = [] := by
        rw [← tokenize_rstrip L, hR, tokenize_nil]
      have hs1 : strip (build_alternative (n0 :: nt) L) = n0 :: nt := by
        rw [hstrip, if_pos hR]
      have htw0 : (n0 :: nt).takeWhile identChar = n0 :: nt :=
        List.takeWhile_eq_self_iff.mpr hident
      have hdw0 : (n0 :: nt).dropWhile identChar = [] :=
        List.dropWhile_eq_nil_iff.mpr hident
      have hps : parseline (build_alternative (n0 :: nt) L)
          = some (some (n0 :: nt), [], n0 :: nt) := by
        unfold parseline
        rw [hs1]
        simp only [hq, hbang, if_false, htw0, hdw0]
        rfl
      simp only [onecmdFuel, hps]
      rw [if_neg (by simp : ¬ (n0 :: nt = []))]
      simp only [shell_lookup, hreg]
      rw [hLtok, tokenize_nil]
    · -- the line has content: it survives as the argument part
      have hs1 : strip (build_alternative (n0 :: nt) L)
          = n0 :: (nt ++ (' ' :: rstrip L)) := by
        rw [hstrip, if_neg hR, List.cons_append]
      have htw : (nt ++ (' ' :: rstrip L)).takeWhile identChar = nt := by
        rw [List.takeWhile_append_of_pos hntident, List.takeWhile_cons_of_neg hsp,
          List.append_nil]
      have hdw : (nt ++ (' ' :: rstrip L)).dropWhile identChar = ' ' :: rstrip L := by
        rw [List.dropWhile_append_of_pos hntident, List.dropWhile_cons_of_neg hsp]
      have hps : parseline (build_alternative (n0 :: nt) L)
          = some (some (n0 :: nt), strip (' ' :: rstrip L),
              n0 :: (nt ++ (' ' :: rstrip L))) := by
        unfold parseline
        rw [hs1]
        simp only [hq, hbang, if_false, List.takeWhile_cons_of_pos hn0i,
          List.dropWhile_cons_of_pos hn0i, htw, hdw]
        rfl
      simp only [onecmdFuel, hps]
      rw [if_neg (by simp : ¬ (n0 :: nt = []))]
      simp only [shell_lookup, hreg]
      have harg : tokenize (strip (' ' :: rstrip L)) = tokenize L := by
        rw [tokenize_strip, tokenize_space_cons (by decide), tokenize_rstrip]
      rw [harg]

/-- Witness for claim C5: in `gEx` (default `echo`) the hook on the
unmatched line `"hello  world"` with a single re-submission of budget
equals direct dispatch on `["echo", "hello", "world"]`, both invoking
`echo` on `["hello", "world"]`. -/
theorem claim5_witness :
    clickshell_default gEx 1 ("hello  world".toList)
      = Outcome.invoked echoCmd ("hello".toList :: "world".toList :: []) ∧
    dispatch_direct gEx (echoCmd.name :: tokenize ("hello  world".toList))
      = Outcome.invoked echoCmd ("hello".toList :: "world".toList :: []) := by
  have h := claim5_hook_equals_direct_dispatch gEx echoCmd ("hello  world".toList) 0
    rfl (by decide) (by decide) (by decide) (by decide)
  have htok : tokenize ("hello  world".toList) = "hello".toList :: "world".toList :: [] := by
    decide
  exact ⟨h.1.trans (by rw [htok]), h.2.trans (by rw [htok])⟩

/-- Claim C8.  Resolution is mutation-free on its token input at the value
level: on the fallback path the third component of the result is the very
token sequence passed in (the commented-out in-place `args.insert` is not
active), on the success path it is the base collaborator's remainder, and
the shell hook's alternative command is a freshly built sequence with the
original line intact as its suffix rather than an edit of the original. -/
theorem claim8_no_input_mutation :
    (∀ (g : GroupState) (args : List Str) (e : ResolveErr),
        base_resolve_command g args = Except.error e →
        resolve_command g args = Except.ok (default_cmd_name g, g.defaultCmd, args)) ∧
    (∀ (g : GroupState) (args rest : List Str) (nm : Str) (c : Cmd),
        base_resolve_command g args = Except.ok (nm, c, rest) →
        resolve_command g args = Except.ok (some nm, some c, rest)) ∧
    (∀ nm line : Str, ∃ pre : Str, build_alternative nm line = pre ++ line) := by
  refine ⟨?_, ?_, ?_⟩
  · intro g args e h
    simp [resolve_command, h]
  · intro g args rest nm c h
    simp [resolve_command, h]
  · intro nm line
    refine ⟨nm ++ (' ' :: []), ?_⟩
    simp [build_alternative]

/-- Witness for claim C8: the fallback on `["zzz"]` in the no-default group
returns the very same token list, and the alternative command for default
name `echo` and line `"1 2"` carries the line as an unchanged suffix. -/
theorem claim8_witness :
    resolve_command gNoDefault ("zzz".toList :: [])
      = Except.ok (none, none, "zzz".toList :: []) ∧
    ∃ pre : Str, build_alternative ("echo".toList) ("1 2".toList)
      = pre ++ ("1 2".toList) :=
  ⟨claim8_no_input_mutation.1 gNoDefault ("zzz".toList :: [])
      (ResolveErr.noSuchCommand ("zzz".toList)) rfl,
    claim8_no_input_mutation.2.2 ("echo".toList) ("1 2".toList)⟩

end ShellWithDefault
